import Mathlib

/-!
Shallow embedding of the go-steg steganography package.

The repository holds two variants of the same package: the file
`src/unnamed/part_000` (namespace `Part000` below) and `src/steg/steg.go`
(namespace `StegDir` below).  They share `inBounds`, `offsetFromMin`,
`pointAtOffset`, the bit pack/unpack loops, `pow` and the pixel-scan shape,
and differ only in `Point.before` (`>` versus `>=` on the column), in the
presence of the empty-message check at the top of `Encode`, and in error
message texts.  Shared code is defined once at top level; the variant
functions live in the two namespaces.

Modelling conventions:
 - Go `int` is `Int`; Go `uint` arithmetic is carried out mod 2^64
   (`uintOf`, `usub`, and the explicit `% u64` in `offsetFromMin`).
 - Go integer division truncates toward zero, so `Int.tdiv` is used.
 - An image (`image.RGBA`) is a total function from coordinates to pixels;
   `At(x,y).RGBA()` returns each stored 8-bit channel `c` widened to 16 bits
   as `c | c<<8` (`rgba16`), and `Set` stores the `uint8` truncation of each
   channel, exactly as the Go code's casts do.
 - File opening, PNG container decode/encode and path resolution are the
   I/O wrapper around the core; the model's `encode`/`decode` operate on the
   decoded pixel grid and its bounds rectangle directly, preserving the
   order of all validation checks relative to the scan and to the output
   write.  An error result therefore also means: the scan never ran, no
   pixel was mutated and no output was produced.
 - The Go expression `msg[(i-offset)/8]` panics when the index reaches
   `len(msg)`.  The scan state records such an access in its `oob` field and
   `encode` surfaces it as the distinguished result
   `.error "panic: runtime error: index out of range"`.
 - Go `msg += string(n)` appends the UTF-8 encoding of code point `n`
   (`utf8OfCodepoint`), not the raw byte `n`.
 - `pow` in the source goes through `math.Pow` on `float64`; on every input
   the source uses (base 2, exponent 0..7) this is exact, and it is modelled
   as integer exponentiation.
-/

/-- `Point` from the source: a pixel coordinate, Go `int` fields. -/
structure Point where
  x : Int
  y : Int
deriving DecidableEq, Repr

/-- One RGBA pixel as stored by `image.RGBA`: four 8-bit channel samples. -/
structure Pix where
  r : Nat
  g : Nat
  b : Nat
  a : Nat
deriving DecidableEq, Repr

/-- `image.Rectangle`: the half-open region `[minP, maxP)`. -/
structure Rect where
  minP : Point
  maxP : Point
deriving DecidableEq, Repr

/-- The decoded pixel grid, addressed by coordinate. -/
abbrev Img := Point → Pix

/-- `img.Set x y px`: functional update of one pixel. -/
def setPix (img : Img) (p : Point) (px : Pix) : Img :=
  fun q => if q = p then px else img q

/-- `RGBA()` widening of one stored 8-bit channel: `v := uint32(c); v |= v << 8`. -/
def rgba16 (c : Nat) : Nat :=
  (c % 256) ||| ((c % 256) <<< 8)

/-- `func pow(x, y int) int` — `math.Pow` is exact on the powers of two the
source computes with it. -/
def pow (x y : Int) : Int :=
  x ^ y.toNat

/-- 2^64, the modulus of Go `uint` arithmetic. -/
def u64 : Nat := 18446744073709551616

/-- Go conversion `uint(n)` of an `int`: two's-complement reinterpretation. -/
def uintOf (n : Int) : Nat :=
  (n % (18446744073709551616 : Int)).toNat

/-- Wrapping Go `uint` subtraction `a - b` for `a b < 2^64`. -/
def usub (a b : Nat) : Nat :=
  (u64 + a - b) % u64

/-- `func inBounds(r image.Rectangle, p Point) bool`, with the source's
  four early returns. -/
def inBounds (r : Rect) (p : Point) : Bool :=
  if p.x < r.minP.x then false
  else if p.y < r.minP.y then false
  else if p.x ≥ r.maxP.x then false
  else if p.y ≥ r.maxP.y then false
  else true

/-- `func offsetFromMin(r image.Rectangle, p Point) uint`:
`width := uint(r.Max.X) - uint(r.Min.X); return (uint(p.Y) * uint(width)) + uint(p.X)`.
Every operation wraps mod 2^64.  Note the source does not subtract `r.Min`
from `p` on either axis. -/
def offsetFromMin (r : Rect) (p : Point) : Nat :=
  let width := usub (uintOf r.maxP.x) (uintOf r.minP.x)
  ((uintOf p.y * width) % u64 + uintOf p.x) % u64

/-- `func pointAtOffset(r image.Rectangle, p Point, offset int) Point`. -/
def pointAtOffset (r : Rect) (p : Point) (offset : Int) : Point :=
  let width := r.maxP.x - r.minP.x
  let rows := Int.tdiv offset width
  let y1 := p.y + rows
  let off1 := offset - rows * width
  if p.x + off1 > r.maxP.x then
    Point.mk (r.minP.x + (off1 - (r.maxP.x - p.x))) (y1 + 1)
  else
    Point.mk (p.x + off1) y1

/-- The bit weights `pow(2, 7-i)` for `i = 0..7` used by both pack loops. -/
def weights : List Nat :=
  (List.range 8).map (fun i => (pow 2 (7 - (i : Int))).toNat)

/-- Loop body of `byteToBits`: walk the weights, setting each bit iff the
weight still fits in the residual value, then subtracting it. -/
def byteToBitsGo : List Nat → Nat → List Bool
  | [], _ => []
  | pos :: rest, b =>
    if pos ≤ b then true :: byteToBitsGo rest (b - pos)
    else false :: byteToBitsGo rest b

/-- `func byteToBits`: one byte to its 8 bits, most significant first. -/
def byteToBits (b : Nat) : List Bool :=
  byteToBitsGo weights b

/-- Loop body of `bitsToByte`: `b += byte(pos)` for each set bit
(byte addition, hence the mod 256). -/
def bitsToByteGo : List (Nat × Bool) → Nat → Nat
  | [], b => b
  | (pos, bit) :: rest, b =>
    bitsToByteGo rest (if bit then (b + pos) % 256 else b)

/-- `func bitsToByte`: 8 bits, most significant first, back to one byte. -/
def bitsToByte (bits : List Bool) : Nat :=
  bitsToByteGo (weights.zip bits) 0

/-- Go `string(n)` for a byte `n` appends the UTF-8 encoding of code
point `n`: one byte below 128, two bytes otherwise. -/
def utf8OfCodepoint (n : Nat) : List Nat :=
  if n < 128 then [n] else [192 + n / 64, 128 + n % 64]

/-- The row-major scan order of the two nested `for` loops:
`for y := Min.Y; y < Max.Y; y++ { for x := Min.X; x < Max.X; x++ }`. -/
def scanPoints (r : Rect) : List Point :=
  (List.range (r.maxP.y - r.minP.y).toNat).flatMap (fun j =>
    (List.range (r.maxP.x - r.minP.x).toNat).map (fun k =>
      Point.mk (r.minP.x + (k : Int)) (r.minP.y + (j : Int))))

/-- Mutable state of the encode scan: the image being written, the running
absolute pixel index `i`, the 8-slot bit buffer `tmp`, and `oob`, which
records whether `msg[(i-offset)/8]` was evaluated with an index at or past
`len(msg)` (a Go runtime panic). -/
structure ScanSt where
  img : Img
  i : Nat
  tmp : List Bool
  oob : Bool

/-- The encode pixel loop.  Per visited coordinate: skip (but count) pixels
before `start`; break out of both loops at `end`; otherwise refill `tmp`
from the next message byte whenever `i % 8 == 0`, and set or clear bit
`bit` of the red channel according to `tmp[i % 8]`, writing the other three
channels back unchanged. -/
def encodeScan (bit : Int) (msg : List Nat) (start endP : Point) (offset : Nat) :
    List Point → ScanSt → ScanSt
  | [], st => st
  | p :: rest, st =>
    if p.x < start.x ∨ p.y < start.y then
      encodeScan bit msg start endP offset rest
        (ScanSt.mk st.img (st.i + 1) st.tmp st.oob)
    else if p.x = endP.x ∧ p.y = endP.y then
      st
    else
      let md := st.i % 8
      let idx := usub st.i offset / 8
      let tmp := if md = 0 then byteToBits (msg.getD idx 0) else st.tmp
      let oob := st.oob || (decide (md = 0) && decide (msg.length ≤ idx))
      let px := st.img p
      let r16 := rgba16 px.r
      let rNew :=
        if tmp.getD md false then r16 ||| ((pow 2 bit).toNat % 4294967296)
        else (r16 % 256) &&& (((pow 2 bit).toNat % 256) ^^^ 255)
      let img2 := setPix st.img p
        (Pix.mk (rNew % 256) (rgba16 px.g % 256) (rgba16 px.b % 256) (rgba16 px.a % 256))
      encodeScan bit msg start endP offset rest (ScanSt.mk img2 (st.i + 1) tmp oob)

/-- Mutable state of the decode scan: running index `i`, the 8-slot bit
buffer, and the message bytes emitted so far. -/
structure DecSt where
  i : Nat
  tmp : List Bool
  out : List Nat

/-- The decode pixel loop.  Per visited coordinate: skip (but count) pixels
before `start`; break at `end`; otherwise read bit `bit` of the red
channel into `tmp[i % 8]` and, when `i % 8 == 7`, append the byte
`bitsToByte tmp` to the output via Go's `msg += string(n)`. -/
def decodeScan (bit : Int) (img : Img) (start endP : Point) :
    List Point → DecSt → DecSt
  | [], st => st
  | p :: rest, st =>
    if p.x < start.x ∨ p.y < start.y then
      decodeScan bit img start endP rest (DecSt.mk (st.i + 1) st.tmp st.out)
    else if p.x = endP.x ∧ p.y = endP.y then
      st
    else
      let md := st.i % 8
      let bitRead :=
        decide (¬ ((rgba16 (img p).r % 256) &&& ((pow 2 bit).toNat % 256) = 0))
      let tmp := st.tmp.set md bitRead
      let out :=
        if md = 7 then st.out ++ utf8OfCodepoint (bitsToByte tmp) else st.out
      decodeScan bit img start endP rest (DecSt.mk (st.i + 1) tmp out)

/-- The part of `Encoder.Encode` after the (variant-specific) empty-message
check: compute `end`, validate `start` and `end`, run the scan, and return
the mutated image together with `end`.  An `.error` result is returned
before the scan runs and before any output is produced. -/
def encodeBody (bit : Int) (img : Img) (r : Rect) (msg : List Nat) (start : Point) :
    Except String (Img × Point) :=
  let endP := pointAtOffset r start ((msg.length * 8 : Nat) : Int)
  if inBounds r start = false then .error "start point out of bounds"
  else if inBounds r endP = false then .error "end point out of bounds"
  else
    let offset := offsetFromMin r start
    let st := encodeScan bit msg start endP offset (scanPoints r)
      (ScanSt.mk img 0 (List.replicate 8 false) false)
    if st.oob then .error "panic: runtime error: index out of range"
    else .ok (st.img, endP)

/-- The part of `Encoder.Decode` after the (variant-ordered) `before` check:
validate `start` and `end`, run the scan, return the assembled message. -/
def decodeBody (bit : Int) (img : Img) (r : Rect) (start endP : Point) :
    Except String (List Nat) :=
  if inBounds r start = false then .error "start point out of bounds"
  else if inBounds r endP = false then .error "end point out of bounds"
  else
    .ok (decodeScan bit img start endP (scanPoints r)
      (DecSt.mk 0 (List.replicate 8 false) [])).out

/-- The semantics of one Go assignment step `e.SetMsgBit(n)` on the stored
`bit` field: it is unchanged on the error path, set to `n` otherwise.
Identical in both variants. -/
def applyMsgBit (bit n : Int) : Int :=
  if n < 0 ∨ n > 7 then bit else n

/-- The zero value of `Encoder.bit`: a fresh `Encoder` encodes to bit 0. -/
def encoderDefaultBit : Int := 0

namespace Part000

/-- `Point.before` of `src/unnamed/part_000`: fails only when `p2` is on an
earlier-or-equal row and a strictly earlier column. -/
def before (p1 p2 : Point) : Bool :=
  if p1.y ≥ p2.y ∧ p1.x > p2.x then false else true

/-- `Encoder.SetMsgBit` of `src/unnamed/part_000` (with its `fmt.Errorf`
message). -/
def setMsgBit (n : Int) : Except String Int :=
  if n < 0 ∨ n > 7 then
    .error ("msg bit out of bounds: got " ++ toString n ++ ", wanted 0-7 inclusive")
  else .ok n

/-- `Encoder.Encode` of `src/unnamed/part_000`: rejects a zero-length
message first, before any path resolution or file access. -/
def encode (bit : Int) (img : Img) (r : Rect) (msg : List Nat) (start : Point) :
    Except String (Img × Point) :=
  if msg.length = 0 then .error "msg is zero length"
  else encodeBody bit img r msg start

/-- `Encoder.Decode` of `src/unnamed/part_000`: the `before` check comes
first, then bounds validation, then the scan. -/
def decode (bit : Int) (img : Img) (r : Rect) (start endP : Point) :
    Except String (List Nat) :=
  if before start endP = false then .error "start point does not precede end point"
  else decodeBody bit img r start endP

end Part000

namespace StegDir

/-- `Point.before` of `src/steg/steg.go`: fails when `p2` is on an
earlier-or-equal row and an earlier-or-equal column (note the `>=`). -/
def before (p1 p2 : Point) : Bool :=
  if p1.y ≥ p2.y ∧ p1.x ≥ p2.x then false else true

/-- `Encoder.SetMsgBit` of `src/steg/steg.go`. -/
def setMsgBit (n : Int) : Except String Int :=
  if n < 0 ∨ n > 7 then .error "out of bounds" else .ok n

/-- `Encoder.Encode` of `src/steg/steg.go`: no empty-message check. -/
def encode (bit : Int) (img : Img) (r : Rect) (msg : List Nat) (start : Point) :
    Except String (Img × Point) :=
  encodeBody bit img r msg start

/-- `Encoder.Decode` of `src/steg/steg.go`: `before` is checked (after the
container decode, which the model abstracts) before the bounds checks. -/
def decode (bit : Int) (img : Img) (r : Rect) (start endP : Point) :
    Except String (List Nat) :=
  if before start endP = false then .error "start point does not precede end point"
  else decodeBody bit img r start endP

end StegDir

/-- An all-zero test image. -/
def imgZero : Img := fun _ => Pix.mk 0 0 0 0

/-- An all-255 test image. -/
def imgFull : Img := fun _ => Pix.mk 255 255 255 255

/-- A 2×2 rectangle at the origin. -/
def r22 : Rect := Rect.mk (Point.mk 0 0) (Point.mk 2 2)

/-- A 10×10 rectangle at the origin (the spec's concrete-scenario image). -/
def r1010 : Rect := Rect.mk (Point.mk 0 0) (Point.mk 10 10)

/-- A 12×2 rectangle at the origin. -/
def r122 : Rect := Rect.mk (Point.mk 0 0) (Point.mk 12 2)

/-- A 5×7 rectangle at the origin. -/
def r57 : Rect := Rect.mk (Point.mk 0 0) (Point.mk 5 7)

/-- A 5×4 rectangle at the origin. -/
def r54 : Rect := Rect.mk (Point.mk 0 0) (Point.mk 5 4)

set_option maxRecDepth 4000 in
/-- Claim C9: for every byte value `b` in `0..255`,
`bitsToByte (byteToBits b) = b`: the two pack/unpack loops are exact
inverses. -/
theorem bitsToByte_byteToBits : ∀ b : Nat, b < 256 → bitsToByte (byteToBits b) = b := by
  decide

/-- Witness for `bitsToByte_byteToBits` at `b = 200`. -/
theorem bitsToByte_byteToBits_witness : bitsToByte (byteToBits 200) = 200 :=
  bitsToByte_byteToBits 200 (by decide)

/-- Claim C3, counterexample: on the 10×10 rectangle at the origin,
advancing `(8,0)` by 16 bits does not give the spec's `(6,1)`. -/
theorem pointAtOffset_wrap_not_6_1 :
    pointAtOffset r1010 (Point.mk 8 0) 16 ≠ Point.mk 6 1 := by
  decide

/-- Claim C3, amended: `pointAtOffset` advances `(8,0)` by 16 bits to
`(4,2)` on the 10×10 rectangle — linearly, index 8 plus 16 is 24, which is
row 2, column 4. -/
theorem pointAtOffset_wrap_example :
    pointAtOffset r1010 (Point.mk 8 0) 16 = Point.mk 4 2 := by
  decide

/-- Claim C4, counterexample: for the rectangle with `min = (1,1)`,
`max = (11,11)`, the linear offset of `min` itself is 11, not 0 — the
source never subtracts `r.Min` from the point. -/
theorem offsetFromMin_at_min_ne_zero :
    offsetFromMin (Rect.mk (Point.mk 1 1) (Point.mk 11 11)) (Point.mk 1 1) ≠ 0 := by
  decide

/-- Claim C4, amended: for every rectangle and point with non-negative
coordinates small enough that the `uint` arithmetic does not wrap,
`offsetFromMin r p = p.y * width + p.x` where
`width = r.maxP.x - r.minP.x` — the point's raw coordinates, with no
subtraction of `r.minP` on either axis. -/
theorem offsetFromMin_eq (r : Rect) (p : Point)
    (h1 : 0 ≤ r.minP.x) (h2 : r.minP.x ≤ r.maxP.x)
    (h3 : r.maxP.x < 18446744073709551616)
    (h4 : 0 ≤ p.x) (h5 : p.x < 18446744073709551616)
    (h6 : 0 ≤ p.y) (h7 : p.y < 18446744073709551616)
    (h8 : p.y.toNat * (r.maxP.x - r.minP.x).toNat + p.x.toNat < 18446744073709551616) :
    offsetFromMin r p = p.y.toNat * (r.maxP.x - r.minP.x).toNat + p.x.toNat := by
  have hu : ∀ n : Int, 0 ≤ n → n < 18446744073709551616 → uintOf n = n.toNat := by
    intro n hn hlt
    unfold uintOf
    rw [Int.emod_eq_of_lt hn hlt]
  have hmin0 : 0 ≤ r.maxP.x := le_trans h1 h2
  have hux : uintOf p.x = p.x.toNat := hu p.x h4 h5
  have huy : uintOf p.y = p.y.toNat := hu p.y h6 h7
  have humax : uintOf r.maxP.x = r.maxP.x.toNat := hu r.maxP.x hmin0 h3
  have humin : uintOf r.minP.x = r.minP.x.toNat :=
    hu r.minP.x h1 (lt_of_le_of_lt h2 h3)
  unfold offsetFromMin
  rw [hux, huy, humax, humin]
  have hble : r.minP.x.toNat ≤ r.maxP.x.toNat := by omega
  have halt : r.maxP.x.toNat < u64 := by unfold u64; omega
  have hw : usub r.maxP.x.toNat r.minP.x.toNat = r.maxP.x.toNat - r.minP.x.toNat := by
    unfold usub
    have hstep : u64 + r.maxP.x.toNat - r.minP.x.toNat =
        u64 + (r.maxP.x.toNat - r.minP.x.toNat) := by omega
    rw [hstep, Nat.add_mod_left, Nat.mod_eq_of_lt (by omega)]
  rw [hw]
  have hwd : (r.maxP.x - r.minP.x).toNat = r.maxP.x.toNat - r.minP.x.toNat := by omega
  rw [hwd] at h8
  have hlt1 : p.y.toNat * (r.maxP.x.toNat - r.minP.x.toNat) + p.x.toNat < u64 := by
    unfold u64; omega
  have hlt2 : p.y.toNat * (r.maxP.x.toNat - r.minP.x.toNat) < u64 :=
    lt_of_le_of_lt (Nat.le_add_right _ _) hlt1
  show (p.y.toNat * (r.maxP.x.toNat - r.minP.x.toNat) % u64 + p.x.toNat) % u64 =
    p.y.toNat * (r.maxP.x - r.minP.x).toNat + p.x.toNat
  rw [Nat.mod_eq_of_lt hlt2, Nat.mod_eq_of_lt hlt1, hwd]

/-- Witness for `offsetFromMin_eq`: on the rectangle `min = (1,1)`,
`max = (11,11)` (width 10), the point `(3,2)` has offset `2*10+3 = 23`. -/
theorem offsetFromMin_eq_witness :
    offsetFromMin (Rect.mk (Point.mk 1 1) (Point.mk 11 11)) (Point.mk 3 2) = 23 := by
  rw [offsetFromMin_eq (Rect.mk (Point.mk 1 1) (Point.mk 11 11)) (Point.mk 3 2)
    (by decide) (by decide) (by decide) (by decide) (by decide) (by decide)
    (by decide) (by decide)]
  decide

/-- Claim C5, counterexample: the `steg/steg.go` `Encode` has no
empty-message check — with a zero-length message and an in-bounds start it
succeeds, leaves the image untouched, and returns `end = start` (so the
destination file is written). -/
theorem steg_encode_empty_msg_no_error :
    StegDir.encode 0 imgZero r22 [] (Point.mk 0 0) =
      Except.ok (imgZero, Point.mk 0 0) := rfl

/-- Claim C5, amended: the `part_000` `Encode` rejects a zero-length
message with its `InvalidArgument` error as the very first step, for every
image, rectangle, start and bit position, before any path resolution, file
open or pixel access. -/
theorem part000_encode_empty_msg_rejected (bit : Int) (img : Img) (r : Rect)
    (start : Point) :
    Part000.encode bit img r [] start = .error "msg is zero length" := rfl

/-- Claim C6, counterexample: the `part_000` `Decode` uses `>` on the
column in `before`, so `start = end = (0,0)` passes the ordering check and
decodes to the empty message instead of being rejected. -/
theorem part000_decode_start_eq_end_accepted :
    Part000.decode 0 imgZero r22 (Point.mk 0 0) (Point.mk 0 0) =
      Except.ok [] := rfl

/-- Claim C6, amended: the `steg/steg.go` `Decode` rejects with the
"start point does not precede end point" error exactly per the claimed
predicate: whenever `end.y ≤ start.y` and `end.x ≤ start.x` (in particular
whenever `start = end`). -/
theorem steg_decode_rejects_nonpreceding (bit : Int) (img : Img) (r : Rect)
    (start endP : Point) (hy : endP.y ≤ start.y) (hx : endP.x ≤ start.x) :
    StegDir.decode bit img r start endP =
      .error "start point does not precede end point" := by
  have hb : StegDir.before start endP = false := by
    unfold StegDir.before
    rw [if_pos ⟨hy, hx⟩]
  unfold StegDir.decode
  rw [hb]
  rfl

/-- Witness for `steg_decode_rejects_nonpreceding` at `start = end = (1,1)`. -/
theorem steg_decode_rejects_nonpreceding_witness :
    StegDir.decode 0 imgZero r22 (Point.mk 1 1) (Point.mk 1 1) =
      .error "start point does not precede end point" :=
  steg_decode_rejects_nonpreceding 0 imgZero r22 (Point.mk 1 1) (Point.mk 1 1)
    (by decide) (by decide)

/-- Claim C7: in both variants, `Encode` with a non-empty message rejects
an out-of-bounds `start` with the "start point out of bounds" error, and an
in-bounds `start` whose computed `end` is out of bounds with the
"end point out of bounds" error — in each case before the scan runs, so no
pixel is mutated and no output is produced (the model's error results carry
no image). -/
theorem encode_out_of_bounds_rejected (bit : Int) (img : Img) (r : Rect)
    (msg : List Nat) (start : Point) (hm : msg ≠ []) :
    (inBounds r start = false →
      Part000.encode bit img r msg start = .error "start point out of bounds" ∧
      StegDir.encode bit img r msg start = .error "start point out of bounds") ∧
    (inBounds r start = true →
      inBounds r (pointAtOffset r start ((msg.length * 8 : Nat) : Int)) = false →
      Part000.encode bit img r msg start = .error "end point out of bounds" ∧
      StegDir.encode bit img r msg start = .error "end point out of bounds") := by
  have hlen : ¬ (msg.length = 0) := by simpa using hm
  refine ⟨fun h1 => ⟨?_, ?_⟩, fun h1 h2 => ⟨?_, ?_⟩⟩
  · simp only [Part000.encode, encodeBody, if_neg hlen, if_pos h1]
  · simp only [StegDir.encode, encodeBody, if_pos h1]
  · have hne : ¬ (inBounds r start = false) := by simp [h1]
    simp only [Part000.encode, encodeBody, if_neg hlen, if_neg hne, if_pos h2]
  · have hne : ¬ (inBounds r start = false) := by simp [h1]
    simp only [StegDir.encode, encodeBody, if_neg hne, if_pos h2]

/-- Witness for `encode_out_of_bounds_rejected`: on the 2×2 rectangle, a
start of `(5,5)` is rejected as start-out-of-bounds, and a 2-byte message
from `(1,1)` (whose computed end is `(1,9)`) as end-out-of-bounds. -/
theorem encode_out_of_bounds_rejected_witness :
    Part000.encode 0 imgZero r22 [1] (Point.mk 5 5) =
      .error "start point out of bounds" ∧
    Part000.encode 0 imgZero r22 [1, 1] (Point.mk 1 1) =
      .error "end point out of bounds" :=
  ⟨((encode_out_of_bounds_rejected 0 imgZero r22 [1] (Point.mk 5 5)
      (by decide)).1 (by decide)).1,
   ((encode_out_of_bounds_rejected 0 imgZero r22 [1, 1] (Point.mk 1 1)
      (by decide)).2 (by decide) (by decide)).1⟩

/-- Bound preservation for a sequence of `SetMsgBit` assignment steps:
starting from any bit position in `[0,7]`, every fold of `applyMsgBit`
stays in `[0,7]`. -/
theorem applyMsgBit_foldl_bounds (l : List Int) :
    ∀ b : Int, 0 ≤ b → b ≤ 7 →
      0 ≤ List.foldl applyMsgBit b l ∧ List.foldl applyMsgBit b l ≤ 7 := by
  induction l with
  | nil => intro b h0 h7; exact ⟨h0, h7⟩
  | cons a t ih =>
    intro b h0 h7
    simp only [List.foldl_cons]
    apply ih
    · unfold applyMsgBit; split <;> omega
    · unfold applyMsgBit; split <;> omega

/-- Claim C10: the encoder's default bit position is 0; `SetMsgBit n` with
`n` in `[0,7]` succeeds and stores `n` (both variants); `SetMsgBit n` with
`n` out of range returns each variant's out-of-bounds error and leaves the
stored bit unchanged; and after any sequence of `SetMsgBit` calls starting
from the default, the stored bit remains in `[0,7]`. -/
theorem setMsgBit_invariant :
    encoderDefaultBit = 0 ∧
    (∀ n : Int, 0 ≤ n → n ≤ 7 →
      Part000.setMsgBit n = .ok n ∧ StegDir.setMsgBit n = .ok n ∧
      ∀ b : Int, applyMsgBit b n = n) ∧
    (∀ n : Int, n < 0 ∨ 7 < n →
      Part000.setMsgBit n =
        .error ("msg bit out of bounds: got " ++ toString n ++ ", wanted 0-7 inclusive") ∧
      StegDir.setMsgBit n = .error "out of bounds" ∧
      ∀ b : Int, applyMsgBit b n = b) ∧
    (∀ l : List Int, 0 ≤ List.foldl applyMsgBit encoderDefaultBit l ∧
      List.foldl applyMsgBit encoderDefaultBit l ≤ 7) := by
  refine ⟨rfl, ?_, ?_, ?_⟩
  · intro n h0 h7
    have hc : ¬ (n < 0 ∨ n > 7) := by omega
    exact ⟨by simp [Part000.setMsgBit, hc], by simp [StegDir.setMsgBit, hc],
      fun b => by simp [applyMsgBit, hc]⟩
  · intro n h
    have hc : n < 0 ∨ n > 7 := h
    exact ⟨by simp [Part000.setMsgBit, hc], by simp [StegDir.setMsgBit, hc],
      fun b => by simp [applyMsgBit, hc]⟩
  · intro l
    exact applyMsgBit_foldl_bounds l encoderDefaultBit (by decide) (by decide)

/-- Witness for `setMsgBit_invariant`: setting bit 5 succeeds; an attempt
to set bit 99 leaves a stored bit of 3 unchanged. -/
theorem setMsgBit_invariant_witness :
    Part000.setMsgBit 5 = .ok 5 ∧ applyMsgBit 3 99 = 3 :=
  ⟨(setMsgBit_invariant.2.1 5 (by decide) (by decide)).1,
   (setMsgBit_invariant.2.2.1 99 (by decide)).2.2 3⟩

/-- Claim C1, failing input: on the 12×2 image, `start = (2,0)` and the
one-byte message `[65]` pass every validation (`end = (10,0)` is in
bounds), yet encode-then-decode over `[start, end)` returns `[0]`, not
`[65]`: the scan's byte buffer is aligned to the absolute pixel index, and
`offsetFromMin` of the start (here 2) is not a multiple of 8, so the
message bits are shifted and the round-trip is lost. -/
theorem round_trip_fails_misaligned :
    inBounds r122 (Point.mk 2 0) = true ∧
    pointAtOffset r122 (Point.mk 2 0) 8 = Point.mk 10 0 ∧
    inBounds r122 (Point.mk 10 0) = true ∧
    (match Part000.encode 0 imgZero r122 [65] (Point.mk 2 0) with
      | .ok (im, e) => Part000.decode 0 im r122 (Point.mk 2 0) e
      | .error s => .error s) = .ok [0] ∧
    ([0] : List Nat) ≠ [65] :=
  ⟨rfl, rfl, rfl, rfl, by decide⟩

/-- Claim C2, failing input: on the 5×7 image, `start = (3,0)` and a
one-byte message pass every validation (`end = (1,2)` is in bounds), but
the computed end lies in a column left of `start`, so the scan's `break`
comparison never fires; at pixel `(4,4)` (absolute index 24) the scan
evaluates `msg[(24-3)/8] = msg[2]` on a 1-byte message — an index
out-of-range panic, surfaced by the model as the distinguished panic
result. -/
theorem encode_scan_reads_past_message :
    inBounds r57 (Point.mk 3 0) = true ∧
    pointAtOffset r57 (Point.mk 3 0) 8 = Point.mk 1 2 ∧
    inBounds r57 (Point.mk 1 2) = true ∧
    Part000.encode 0 imgZero r57 [0] (Point.mk 3 0) =
      .error "panic: runtime error: index out of range" :=
  ⟨rfl, rfl, rfl, rfl⟩

/-- Claim C8, failing input: on the 5×4 all-255 image, encoding the
one-byte message `[0]` from `(3,0)` succeeds with `end = (1,2)` (linear
offset 11), yet the pixel `(3,3)` — linear offset 18, outside
`[start, end)` — has its red channel changed from 255 to 254: the wrapped
end is never matched by the `break` comparison and the scan keeps writing
to the bottom of the image. -/
theorem encode_writes_outside_region :
    pointAtOffset r54 (Point.mk 3 0) 8 = Point.mk 1 2 ∧
    inBounds r54 (Point.mk 1 2) = true ∧
    offsetFromMin r54 (Point.mk 1 2) = 11 ∧
    offsetFromMin r54 (Point.mk 3 3) = 18 ∧
    (imgFull (Point.mk 3 3)).r = 255 ∧
    (Part000.encode 0 imgFull r54 [0] (Point.mk 3 0)).isOk = true ∧
    (match Part000.encode 0 imgFull r54 [0] (Point.mk 3 0) with
      | .ok (im, _) => (im (Point.mk 3 3)).r
      | .error _ => 0) = 254 :=
  ⟨rfl, rfl, rfl, rfl, rfl, rfl, rfl⟩
